/-
Verification of the TalentAI backend (src/backend/main.py) against its
natural-language specification.

The repository ships a single source file, the FastAPI request-handling
layer `src/backend/main.py`.  The service layer it calls
(MatchingService, IngestService, IndexingService, the ORM models and the
config) is not part of the sources; where a claim depends on that
missing code we model it from the specification, and each such
definition carries a doc comment starting with "Modelled from the
spec:".  Everything defined from `main.py` itself is a direct shallow
embedding of that file: HTTP handlers become Lean functions over an
explicit database state, raised `HTTPException`s become `Except.error`
values carrying the status code, and Python name resolution (which
matters because `main.py` uses `datetime.utcnow()` without importing
`datetime`) is modelled by the explicit list of names bound at module
scope.
-/
import Mathlib

/-- An HTTP error response produced by `raise HTTPException(status_code, detail)`. -/
structure HTTPErr where
  status : Nat
  detail : String
  deriving Repr, DecidableEq

/-- An audit record (spec section 3, AuditEntry; ORM model `AuditLog`):
entity type and id, action kind, a snapshot of what changed, actor, timestamp. -/
structure AuditEntry where
  entityType : String
  entityId : Nat
  action : String
  changes : String
  performedBy : String
  performedAt : Nat
  deriving Repr, DecidableEq

/-- A candidate record (spec section 3, CandidateRecord) with the fields the
verified claims touch: identity fields, aggregated fields, lifecycle status,
update timestamp, the fingerprints of its owned ResumeRefs, and the employer
tokens of its ExperienceEntries (used by identity-resolution rule 4). -/
structure Candidate where
  id : Nat
  name : String
  email : String
  phone : String
  location : String
  skills : List String
  status : String
  yearsExperience : Nat
  updatedAt : Nat
  fingerprints : List String
  companies : List String
  deriving Repr, DecidableEq

/-- Per-candidate index state (spec section 3, CandidateIndexState):
the stored embedding vector, the model version tag, and the refresh timestamp. -/
structure IndexEntry where
  candidateId : Nat
  embedding : List Int
  version : String
  updatedAt : Nat
  deriving Repr, DecidableEq

/-- The persistent state the handlers operate on: the canonical candidate
store, the append-only audit log, and the Embedding Index. -/
structure DBState where
  candidates : List Candidate
  auditLog : List AuditEntry
  index : List IndexEntry
  deriving Repr, DecidableEq

/-! ### Name scope of src/backend/main.py

`delete_candidate` (main.py line 369) evaluates `datetime.utcnow()`.  Python
resolves the name `datetime` against the function's local scope, the module's
global scope and the builtins.  The lists below transcribe the names actually
bound there; `datetime` is bound in none of them (main.py has no
`import datetime` / `from datetime import ...` statement), so the evaluation
raises `NameError` at run time. -/

/-- The names bound at module scope in src/backend/main.py: its imports
(lines 1-18) and the module-level bindings `app` (line 21). -/
def mainModuleNames : List String :=
  ["FastAPI", "File", "UploadFile", "Depends", "HTTPException", "Form",
   "CORSMiddleware", "Session", "Optional", "tempfile", "os",
   "get_db", "init_db",
   "MatchRequest", "MatchResponse", "SearchRequest", "SearchResponse",
   "CandidateResponse", "CandidateDetail", "ReindexRequest", "ReindexResponse",
   "IngestResponse", "Candidate",
   "MatchingService", "IngestService", "IndexingService", "settings", "app"]

/-- The names resolvable inside the body of `delete_candidate`: the module
scope plus the function's own local bindings (`candidate_id`, `db`,
`candidate`, the function-local `from models import AuditLog`, `audit`, `e`). -/
def deleteCandidateScopeNames : List String :=
  mainModuleNames ++ ["candidate_id", "db", "candidate", "AuditLog", "audit", "e"]

/-- Response body of a successful DELETE /api/candidates/id call. -/
structure DeleteResponse where
  success : Bool
  message : String
  deriving Repr, DecidableEq

/-- Shallow embedding of `delete_candidate` (main.py lines 345-381).
Control flow transcribed from the source: query the candidate by id; if
absent raise 404; otherwise, inside `try`, build an `AuditLog` row whose
`performed_at` field evaluates `datetime.utcnow()` — which raises
`NameError` when the name `datetime` is not in scope — then `db.add(audit)`,
`db.delete(candidate)` (ORM cascading delete of owned children and index
state, per the models' relationships and spec section 3 ownership),
`db.commit()`.  Any exception is caught, the transaction rolled back, and a
500 raised. -/
def delete_candidate (now : Nat) (cid : Nat) (db : DBState) :
    DBState × Except HTTPErr DeleteResponse :=
  match db.candidates.find? (fun c => c.id == cid) with
  | none => (db, Except.error ⟨404, "候选人不存在"⟩)
  | some c =>
    if deleteCandidateScopeNames.contains "datetime" then
      let audit : AuditEntry :=
        ⟨"candidate", cid, "delete", c.name, "api", now⟩
      let db1 : DBState :=
        { candidates := db.candidates.filter (fun x => x.id != cid),
          auditLog := db.auditLog ++ [audit],
          index := db.index.filter (fun e => e.candidateId != cid) }
      (db1, Except.ok ⟨true, "候选人已删除"⟩)
    else
      (db, Except.error ⟨500, "删除失败: NameError: name datetime is not defined"⟩)

/-- The explicit operations appearing in the body of `delete_candidate`
(main.py lines 355-375), in source order: the candidate query, the
`AuditLog(...)` construction, `db.add(audit)`, `db.delete(candidate)`,
`db.commit()`.  There is no call that removes the candidate's vector from
the Embedding Index as its own step. -/
inductive DeleteStep where
  | queryCandidate
  | mkAuditLog
  | dbAdd
  | dbDelete
  | dbCommit
  | indexRemove
  deriving Repr, DecidableEq

/-- The statement sequence of the `delete_candidate` body, transcribed from
main.py lines 355-375. -/
def delete_candidate_steps : List DeleteStep :=
  [DeleteStep.queryCandidate, DeleteStep.mkAuditLog, DeleteStep.dbAdd,
   DeleteStep.dbDelete, DeleteStep.dbCommit]

/-- A one-candidate store used as the concrete failing input for C1. -/
def dbOneCandidate : DBState :=
  { candidates :=
      [{ id := 1, name := "Alice", email := "a@x.com", phone := "123",
         location := "SF", skills := ["python"], status := "active",
         yearsExperience := 3, updatedAt := 10,
         fingerprints := ["fp1"], companies := ["acme"] }],
    auditLog := [],
    index := [⟨1, [1, 0], "v1", 9⟩] }

/-- Claim C1 (code_bug evidence): deleting a candidate that exists fails.
`delete_candidate` on candidate id 1 of `dbOneCandidate` does not succeed,
does not remove the candidate and appends no AuditEntry: because `main.py`
never imports `datetime`, the `datetime.utcnow()` call in the audit-row
construction raises `NameError`, the handler rolls back and returns
HTTP 500.  Only the NotFound half of the claim holds (id 2 yields 404). -/
theorem c1_delete_existing_candidate_always_fails :
    (delete_candidate 0 1 dbOneCandidate).2 =
      Except.error ⟨500, "删除失败: NameError: name datetime is not defined"⟩ ∧
    (delete_candidate 0 1 dbOneCandidate).1 = dbOneCandidate ∧
    (delete_candidate 0 2 dbOneCandidate).2 = Except.error ⟨404, "候选人不存在"⟩ := by
  refine ⟨rfl, rfl, rfl⟩

/-- Claim C2 (counterexample): the claim says the vector removal is a
separate explicit step of the delete routine; the routine's statement
sequence contains no such step. -/
theorem c2_no_explicit_index_removal_step :
    DeleteStep.indexRemove ∉ delete_candidate_steps := by
  decide

/-- Claim C2 (amended): the delete routine contains no separate explicit
Embedding-Index removal step — vector removal is left to the implicit ORM
cascading delete — and, the missing `datetime` import making every delete
of an existing candidate fail, no invocation of `delete_candidate` ever
changes the Embedding Index. -/
theorem c2_index_removal_only_implicit (now cid : Nat) (db : DBState) :
    DeleteStep.indexRemove ∉ delete_candidate_steps ∧
    (delete_candidate now cid db).1.index = db.index := by
  refine ⟨by decide, ?_⟩
  unfold delete_candidate
  cases db.candidates.find? (fun c => c.id == cid) with
  | none => rfl
  | some c => rfl

/-! ### Embedding Index and Matching/Ranking Engine

The service layer (`services/matching_service.py`) is not among the sources,
so the definitions below are modelled from the specification, sections 4.3
and 4.4, and the HTTP handlers of main.py are embedded on top of them. -/

/-- Modelled from the spec: the metadata filter of Embedding Index `query`
(section 4.3) — "exact-match or range predicates only (e.g. status=active,
location, minimum years of experience)". -/
structure FilterSpec where
  status : Option String
  location : Option String
  minYears : Option Nat
  deriving Repr, DecidableEq

/-- Modelled from the spec: whether a candidate's metadata satisfies a
filter — each present field is an exact-match or lower-bound predicate. -/
def satisfiesFilter (f : FilterSpec) (c : Candidate) : Bool :=
  (match f.status with | none => true | some s => c.status == s) &&
  (match f.location with | none => true | some l => c.location == l) &&
  (match f.minYears with | none => true | some y => decide (y ≤ c.yearsExperience))

/-- Modelled from the spec: the similarity score of the Embedding Index
(section 4.3, "cosine or inner-product, consistently one choice"):
inner product of the two vectors. -/
def dotProduct : List Int → List Int → Int
  | a :: as, b :: bs => a * b + dotProduct as bs
  | _, _ => 0

/-- The ranking order of Embedding Index `query` results (spec section 4.3):
descending similarity, ties broken by most-recently-updated candidate first.
Polymorphic in the score type so that the keyword-search path (Nat overlap
counts) and the embedding path (Int inner products) share it. -/
def rankRel {β : Type} [LinearOrder β] (a b : Candidate × β) : Prop :=
  b.2 < a.2 ∨ (a.2 = b.2 ∧ b.1.updatedAt ≤ a.1.updatedAt)

instance {β : Type} [LinearOrder β] :
    DecidableRel (rankRel (β := β)) := fun a b => by
  unfold rankRel; infer_instance

instance {β : Type} [LinearOrder β] :
    IsTotal (Candidate × β) rankRel where
  total a b := by
    rcases lt_trichotomy a.2 b.2 with h | h | h
    · exact Or.inr (Or.inl h)
    · rcases Nat.le_total b.1.updatedAt a.1.updatedAt with hu | hu
      · exact Or.inl (Or.inr ⟨h, hu⟩)
      · exact Or.inr (Or.inr ⟨h.symm, hu⟩)
    · exact Or.inl (Or.inl h)

instance {β : Type} [LinearOrder β] :
    IsTrans (Candidate × β) rankRel where
  trans a b c hab hbc := by
    rcases hab with h1 | ⟨h1, hu1⟩
    · rcases hbc with h2 | ⟨h2, _⟩
      · exact Or.inl (h2.trans h1)
      · exact Or.inl (h2 ▸ h1)
    · rcases hbc with h2 | ⟨h2, hu2⟩
      · exact Or.inl (h1 ▸ h2)
      · exact Or.inr ⟨h1.trans h2, hu2.trans hu1⟩

/-- Every ranked pair relates with a non-increasing score. -/
theorem rankRel_score_le {β : Type} [LinearOrder β]
    {a b : Candidate × β} (h : rankRel a b) : b.2 ≤ a.2 := by
  rcases h with h | ⟨h, _⟩
  · exact le_of_lt h
  · exact le_of_eq h.symm

/-- Modelled from the spec: Embedding Index `upsert` (section 4.3) —
replaces any prior vector for the candidate and sets the refresh timestamp
and model version. -/
def upsertIndex (db : DBState) (cid : Nat) (vec : List Int) (ver : String)
    (now : Nat) : DBState :=
  { db with index :=
      db.index.filter (fun e => e.candidateId != cid) ++ [⟨cid, vec, ver, now⟩] }

/-- Modelled from the spec: Embedding Index `query` (section 4.3) — restrict
to candidates whose metadata satisfies the filter (filters applied in the
index layer, not post-filtered), score every indexed eligible candidate
against the query embedding, order by descending similarity with ties broken
by freshest `updatedAt`, and return at most `topK` pairs of candidate id and
score. -/
def queryIndex (db : DBState) (qvec : List Int) (f : FilterSpec)
    (topK : Nat) : List (Nat × Int) :=
  let eligible := db.candidates.filter (satisfiesFilter f)
  let scored := eligible.filterMap (fun c =>
    (db.index.find? (fun e => e.candidateId == c.id)).map
      (fun e => (c, dotProduct qvec e.embedding)))
  (((scored.insertionSort rankRel).take topK)).map (fun p => (p.1.id, p.2))

/-- One entry of the ranked list returned by `match`. -/
structure MatchResult where
  candidateId : Nat
  score : Int
  deriving Repr, DecidableEq

/-- Modelled from the spec: `MatchingService.match_candidates`
(section 4.4) — embed the JD text with the black-box embedding function
(which may fail), query the Embedding Index under the filters for `topK`
candidates, and return the ranked list; the final score is the index
similarity score.  An embedding failure fails the whole call, with no
partial list. -/
def matchService (embed : String → Except String (List Int)) (db : DBState)
    (jd : String) (f : FilterSpec) (topK : Nat) :
    Except String (List MatchResult) :=
  match embed jd with
  | Except.error e => Except.error e
  | Except.ok qvec =>
      Except.ok ((queryIndex db qvec f topK).map (fun p => ⟨p.1, p.2⟩))

/-- Shallow embedding of the handler `match_candidates`
(main.py lines 62-85): call the matching service inside `try`; any
exception becomes HTTP 500 with the message prefixed by the failure text. -/
def match_candidates_endpoint (embed : String → Except String (List Int))
    (db : DBState) (jd : String) (f : FilterSpec) (topK : Nat) :
    Except HTTPErr (List MatchResult) :=
  match matchService embed db jd f topK with
  | Except.ok r => Except.ok r
  | Except.error e => Except.error ⟨500, "匹配失败: " ++ e⟩

/-- Soundness of Embedding Index `query`: every returned pair belongs to a
stored candidate that satisfies the filter, at most `topK` pairs are
returned, and the scores are non-increasing along the list. -/
theorem queryIndex_sound (db : DBState) (qvec : List Int) (f : FilterSpec)
    (k : Nat) :
    (∀ r ∈ queryIndex db qvec f k,
        ∃ c ∈ db.candidates, satisfiesFilter f c = true ∧ c.id = r.1) ∧
    (queryIndex db qvec f k).length ≤ k ∧
    (queryIndex db qvec f k).Pairwise (fun a b => b.2 ≤ a.2) := by
  unfold queryIndex
  refine ⟨?_, ?_, ?_⟩
  · intro r hr
    simp only [List.mem_map] at hr
    obtain ⟨p, hp, hpr⟩ := hr
    have hp' := List.mem_of_mem_take hp
    rw [List.mem_insertionSort] at hp'
    rw [List.mem_filterMap] at hp'
    obtain ⟨c, hc, hcp⟩ := hp'
    rw [List.mem_filter] at hc
    refine ⟨c, hc.1, hc.2, ?_⟩
    cases hfind : (db.index.find? (fun e => e.candidateId == c.id)) with
    | none => rw [hfind] at hcp; simp at hcp
    | some e =>
        rw [hfind] at hcp
        simp only [Option.map_some'] at hcp
        injection hcp with hcp
        rw [← hpr, ← hcp]
  · rw [List.length_map]
    exact List.length_take_le _ _
  · refine List.pairwise_map.mpr ?_
    exact ((List.sorted_insertionSort rankRel _).sublist
      (List.take_sublist _ _)).imp fun h => rankRel_score_le h

/-- Claim C4: whenever the matching service returns a ranked list, every
entry comes from a stored candidate satisfying the filter, the list has at
most `topK` entries, and its scores are non-increasing. -/
theorem c4_match_filter_sound (embed : String → Except String (List Int))
    (db : DBState) (jd : String) (f : FilterSpec) (k : Nat)
    (l : List MatchResult)
    (h : matchService embed db jd f k = Except.ok l) :
    (∀ r ∈ l, ∃ c ∈ db.candidates,
        satisfiesFilter f c = true ∧ c.id = r.candidateId) ∧
    l.length ≤ k ∧
    l.Pairwise (fun a b => b.score ≤ a.score) := by
  unfold matchService at h
  cases he : embed jd with
  | error e => rw [he] at h; exact absurd h (by simp)
  | ok qvec =>
    rw [he] at h
    simp only [Except.ok.injEq] at h
    obtain ⟨hmem, hlen, hpw⟩ := queryIndex_sound db qvec f k
    subst h
    refine ⟨?_, ?_, ?_⟩
    · intro r hr
      simp only [List.mem_map] at hr
      obtain ⟨p, hp, hpr⟩ := hr
      obtain ⟨c, hc, hfc, hcid⟩ := hmem p hp
      exact ⟨c, hc, hfc, by rw [← hpr]; exact hcid⟩
    · calc ((queryIndex db qvec f k).map _).length
          = (queryIndex db qvec f k).length := List.length_map _ _
        _ ≤ k := hlen
    · exact List.pairwise_map.mpr (hpw.imp fun h => h)

/-- Claim C4 witness: the theorem applied at a concrete store, embedding
and filter. -/
theorem c4_match_filter_sound_witness :
    (∀ r ∈ [MatchResult.mk 1 2], ∃ c ∈ dbOneCandidate.candidates,
        satisfiesFilter ⟨some "active", none, none⟩ c = true ∧
        c.id = r.candidateId) ∧
    ([MatchResult.mk 1 2]).length ≤ 5 ∧
    ([MatchResult.mk 1 2]).Pairwise (fun a b => b.score ≤ a.score) :=
  c4_match_filter_sound (fun _ => Except.ok [2]) dbOneCandidate "jd"
    ⟨some "active", none, none⟩ 5 [MatchResult.mk 1 2] (by rfl)

/-- Claim C5: an embedding failure fails the whole `match` call with an
error response (no partial ranked list is produced), while an empty
eligible set after filtering is not an error and yields the empty list. -/
theorem c5_match_error_empty :
    (∀ (embed : String → Except String (List Int)) (db : DBState)
        (jd : String) (f : FilterSpec) (k : Nat) (e : String),
      embed jd = Except.error e →
      match_candidates_endpoint embed db jd f k =
        Except.error ⟨500, "匹配失败: " ++ e⟩) ∧
    (∀ (embed : String → Except String (List Int)) (db : DBState)
        (jd : String) (f : FilterSpec) (k : Nat) (qvec : List Int),
      embed jd = Except.ok qvec →
      db.candidates.filter (satisfiesFilter f) = [] →
      match_candidates_endpoint embed db jd f k = Except.ok []) := by
  constructor
  · intro embed db jd f k e he
    simp [match_candidates_endpoint, matchService, he]
  · intro embed db jd f k qvec he hf
    simp [match_candidates_endpoint, matchService, he, queryIndex, hf]

/-- Claim C5 witness: both halves of the theorem applied at concrete
inputs — a failing embedding backend, and an ok backend over a store with
no eligible candidates. -/
theorem c5_match_error_empty_witness :
    match_candidates_endpoint (fun _ => Except.error "down") dbOneCandidate
      "jd" ⟨none, none, none⟩ 5 =
      Except.error ⟨500, "匹配失败: " ++ "down"⟩ ∧
    match_candidates_endpoint (fun _ => Except.ok [1])
      ⟨[], [], []⟩ "jd" ⟨none, none, none⟩ 5 = Except.ok [] :=
  ⟨c5_match_error_empty.1 (fun _ => Except.error "down") dbOneCandidate
      "jd" ⟨none, none, none⟩ 5 "down" rfl,
   c5_match_error_empty.2 (fun _ => Except.ok [1]) ⟨[], [], []⟩
      "jd" ⟨none, none, none⟩ 5 [1] rfl rfl⟩

/-! ### Keyword search -/

/-- One entry of the keyword-search result list. -/
structure SearchResult where
  candidateId : Nat
  score : Nat
  deriving Repr, DecidableEq

/-- Modelled from the spec: normalization of a free-text query into tokens
for the keyword path (section 4.4, "token-overlap scoring only"). -/
def tokenize (s : String) : List String :=
  ((s.splitOn " ").map (fun t => t.toLower)).filter (fun t => t != "")

/-- Modelled from the spec: the token-overlap score of a candidate —
the number of query tokens present in the candidate's normalized skill
set. -/
def keywordScore (q : String) (c : Candidate) : Nat :=
  ((tokenize q).filter
    (fun t => (c.skills.map (fun s => s.toLower)).contains t)).length

/-- Modelled from the spec: `MatchingService.search_candidates`
(section 4.4, degraded keyword path) — token-overlap scoring only, with no
dependency on the Embedding Index: candidates with a positive overlap,
ordered by descending score (ties by freshest update), truncated to
`topK`. -/
def searchService (db : DBState) (q : String) (topK : Nat) :
    List SearchResult :=
  let scored := (db.candidates.filter (fun c => keywordScore q c != 0)).map
    (fun c => (c, keywordScore q c))
  ((scored.insertionSort rankRel).take topK).map (fun p => ⟨p.1.id, p.2⟩)

/-- Response body of GET /api/search (main.py lines 107-111). -/
structure SearchResponse where
  results : List SearchResult
  total : Nat
  query : String
  deriving Repr, DecidableEq

/-- Shallow embedding of the handler `search_candidates`
(main.py lines 88-114): call the search service and shape the response as
the dict literal of lines 107-111 — the result list, `total` as the length
of that list, and the caller's query string. -/
def search_candidates_endpoint (db : DBState) (q : String) (topK : Nat) :
    Except HTTPErr SearchResponse :=
  let results := searchService db q topK
  Except.ok ⟨results, results.length, q⟩

/-- Claim C10: a successful search response has `total` equal to the number
of entries in `results` and echoes the caller's query string. -/
theorem c10_search_total_and_query (db : DBState) (q : String) (k : Nat)
    (resp : SearchResponse)
    (h : search_candidates_endpoint db q k = Except.ok resp) :
    resp.total = resp.results.length ∧ resp.query = q := by
  simp only [search_candidates_endpoint, Except.ok.injEq] at h
  rw [← h]
  exact ⟨rfl, rfl⟩

/-- Claim C10 witness: the theorem applied to a concrete search call. -/
theorem c10_search_total_and_query_witness :
    (SearchResponse.mk [] 0 "x").total =
      (SearchResponse.mk [] 0 "x").results.length ∧
    (SearchResponse.mk [] 0 "x").query = "x" :=
  c10_search_total_and_query ⟨[], [], []⟩ "x" 5 ⟨[], 0, "x"⟩ rfl

/-! ### Read-only nature of match and search (claim C7)

The matching service is, per the spec (sections 2 and 5), a pure read
against the Embedding Index and the canonical store.  The handlers receive
a db session and return a response; we model the session state threaded
through the call, the service computing its answer from the state and the
handler returning that state untouched. -/

/-- The `match_candidates` handler with the database state threaded
through the call: the service layer performs reads only, so the state
comes back with the response. -/
def match_candidates_call (embed : String → Except String (List Int))
    (jd : String) (f : FilterSpec) (topK : Nat) (db : DBState) :
    DBState × Except HTTPErr (List MatchResult) :=
  (db, match_candidates_endpoint embed db jd f topK)

/-- The `search_candidates` handler with the database state threaded
through the call. -/
def search_candidates_call (q : String) (topK : Nat) (db : DBState) :
    DBState × Except HTTPErr SearchResponse :=
  (db, search_candidates_endpoint db q topK)

/-- Claim C7: neither `match` nor `search` mutates the candidate store,
the audit log or the Embedding Index — the state after either call is the
state before it. -/
theorem c7_match_search_pure_reads
    (embed : String → Except String (List Int)) (jd : String)
    (f : FilterSpec) (k : Nat) (q : String) (topK : Nat) (db : DBState) :
    (match_candidates_call embed jd f k db).1 = db ∧
    (search_candidates_call q topK db).1 = db :=
  ⟨rfl, rfl⟩

/-! ### Ingestion pipeline

`services/ingest_service.py` is not among the sources; the resolver,
merger and pipeline below are modelled from spec sections 4.1, 4.2 and
4.5. -/

/-- Modelled from the spec: the structured facts the document extractor
returns for a resume (section 6) — normalized text plus contact fields,
skill tokens and employer tokens. -/
structure RawDoc where
  text : String
  name : String
  email : String
  phone : String
  location : String
  skills : List String
  companies : List String
  deriving Repr, DecidableEq

/-- Modelled from the spec: email normalization — case-insensitive,
trimmed (section 4.1 rule 2). -/
def normEmail (s : String) : String := s.trim.toLower

/-- Modelled from the spec: name normalization for the fuzzy rule
(section 4.1 rule 4). -/
def normName (s : String) : String := s.trim.toLower

/-- Modelled from the spec: phone normalization — digits only
(section 4.1 rule 3). -/
def normPhone (s : String) : String :=
  String.mk (s.data.filter (fun ch => ch.isDigit))

/-- Modelled from the spec: text normalization for fingerprinting —
whitespace-insensitive (section 8, dedup correctness). -/
def normalizeText (t : String) : String :=
  String.intercalate " " ((t.splitOn " ").filter (fun w => w != ""))

/-- Modelled from the spec: the content fingerprint, a hash of the
normalized extracted text (section 3, ResumeRef); the cryptographic hash
is modelled by the normalized text itself, which is deterministic and
injective on normalized content. -/
def fingerprintOf (text : String) : String := normalizeText text

/-- Modelled from the spec: the Identity Resolver (section 4.1).  Rules in
priority order, first confident hit wins: (1) exact fingerprint match
against any existing ResumeRef; (2) exact match on normalized email;
(3) exact match on normalized phone; (4) fuzzy — equal normalized full
name and at least one overlapping employer token — where a tie between
two plausible candidates surfaces as no match instead of auto-merging. -/
def resolveIdentity (db : DBState) (doc : RawDoc) (fp : String) :
    Option Candidate :=
  match db.candidates.find? (fun c => c.fingerprints.contains fp) with
  | some c => some c
  | none =>
    match db.candidates.find?
        (fun c => normEmail c.email == normEmail doc.email) with
    | some c => some c
    | none =>
      match db.candidates.find?
          (fun c => normPhone c.phone == normPhone doc.phone) with
      | some c => some c
      | none =>
        match db.candidates.filter (fun c =>
            normName c.name == normName doc.name &&
            c.companies.any (fun comp => doc.companies.contains comp)) with
        | [c] => some c
        | _ => none

/-- Modelled from the spec: the Profile Merger applied to one candidate
(section 4.2) — the new ResumeRef fingerprint is appended, the aggregate
fields are recomputed deterministically from the merged collections
(modelled as deduplicated unions), and `updated_at` is bumped. -/
def mergeFacts (c : Candidate) (doc : RawDoc) (fp : String) (now : Nat) :
    Candidate :=
  { c with
    fingerprints := c.fingerprints ++ [fp],
    skills := (c.skills ++ doc.skills).dedup,
    companies := (c.companies ++ doc.companies).dedup,
    updatedAt := now }

/-- Modelled from the spec: the transactional merge over the store — the
candidate with the resolved id is replaced by its merged record. -/
def mergeIntoDB (db : DBState) (cid : Nat) (doc : RawDoc) (fp : String)
    (now : Nat) : DBState :=
  { db with candidates := db.candidates.map (fun x =>
      if x.id == cid then mergeFacts x doc fp now else x) }

/-- A fresh candidate id: one past the largest id in the store. -/
def freshId (db : DBState) : Nat :=
  db.candidates.foldr (fun c m => max c.id m) 0 + 1

/-- Modelled from the spec: the CandidateRecord created on `NoMatch`
before the merge runs (section 4.5). -/
def newCandidate (nid : Nat) (doc : RawDoc) (now : Nat) : Candidate :=
  { id := nid, name := doc.name, email := doc.email, phone := doc.phone,
    location := doc.location, skills := [], status := "active",
    yearsExperience := 0, updatedAt := now, fingerprints := [],
    companies := [] }

/-- Outcome record of `ingest` (spec section 4.5). -/
structure IngestResult where
  candidateId : Nat
  wasNewCandidate : Bool
  wasDuplicateResume : Bool
  deriving Repr, DecidableEq

/-- Modelled from the spec: the Ingestion Pipeline `ingest` (section 4.5):
extract facts and fingerprint, run the Identity Resolver, short-circuit as
a duplicate when the match came with the fingerprint already present under
that candidate (no merge, no index update), otherwise run the Profile
Merger (creating a CandidateRecord first on no match), trigger the
embedding upsert for the affected candidate, and append an AuditEntry. -/
def ingestPipeline (embed : String → List Int) (now : Nat) (doc : RawDoc)
    (source : String) (db : DBState) : DBState × IngestResult :=
  let fp := fingerprintOf doc.text
  match resolveIdentity db doc fp with
  | some c =>
    if c.fingerprints.contains fp then
      (db, ⟨c.id, false, true⟩)
    else
      let db1 := mergeIntoDB db c.id doc fp now
      let db2 := upsertIndex db1 c.id (embed doc.text) "v1" now
      let db3 := { db2 with auditLog :=
        db2.auditLog ++ [⟨"candidate", c.id, "merge", source, "api", now⟩] }
      (db3, ⟨c.id, false, false⟩)
  | none =>
    let nid := freshId db
    let db0 := { db with candidates :=
      db.candidates ++ [newCandidate nid doc now] }
    let db1 := mergeIntoDB db0 nid doc fp now
    let db2 := upsertIndex db1 nid (embed doc.text) "v1" now
    let db3 := { db2 with auditLog :=
      db2.auditLog ++ [⟨"candidate", nid, "merge", source, "api", now⟩] }
    (db3, ⟨nid, true, false⟩)

/-- A resolved identity is a candidate of the store. -/
theorem resolveIdentity_mem (db : DBState) (doc : RawDoc) (fp : String)
    (c : Candidate) (h : resolveIdentity db doc fp = some c) :
    c ∈ db.candidates := by
  unfold resolveIdentity at h
  cases h1 : db.candidates.find? (fun c => c.fingerprints.contains fp) with
  | some c1 =>
    rw [h1] at h
    injection h with h
    subst h
    exact List.mem_of_find?_eq_some h1
  | none =>
    rw [h1] at h
    cases h2 : db.candidates.find?
        (fun c => normEmail c.email == normEmail doc.email) with
    | some c2 =>
      rw [h2] at h
      injection h with h
      subst h
      exact List.mem_of_find?_eq_some h2
    | none =>
      rw [h2] at h
      cases h3 : db.candidates.find?
          (fun c => normPhone c.phone == normPhone doc.phone) with
      | some c3 =>
        rw [h3] at h
        injection h with h
        subst h
        exact List.mem_of_find?_eq_some h3
      | none =>
        rw [h3] at h
        cases h4 : db.candidates.filter (fun c =>
            normName c.name == normName doc.name &&
            c.companies.any (fun comp => doc.companies.contains comp)) with
        | nil => rw [h4] at h; exact absurd h (by simp)
        | cons c4 rest =>
          cases rest with
          | nil =>
            rw [h4] at h
            injection h with h
            subst h
            have hmem : c4 ∈ db.candidates.filter (fun c =>
                normName c.name == normName doc.name &&
                c.companies.any (fun comp => doc.companies.contains comp)) := by
              rw [h4]; exact List.mem_singleton.mpr rfl
            exact (List.mem_filter.mp hmem).1
          | cons c5 rest2 => rw [h4] at h; exact absurd h (by simp)


/-- When some stored candidate already owns the document's fingerprint, the
resolver fires rule 1 and the pipeline short-circuits as a duplicate: the
store, audit log and index come back unchanged and the outcome reports
`wasDuplicateResume = true`. -/
theorem ingest_duplicate_shortcircuit (embed : String → List Int)
    (now : Nat) (doc : RawDoc) (source : String) (db : DBState)
    (h : ∃ c ∈ db.candidates,
      c.fingerprints.contains (fingerprintOf doc.text) = true) :
    (ingestPipeline embed now doc source db).1 = db ∧
    (ingestPipeline embed now doc source db).2.wasDuplicateResume = true := by
  obtain ⟨c0, hc0, hfp0⟩ := h
  cases hfind : db.candidates.find?
      (fun c => c.fingerprints.contains (fingerprintOf doc.text)) with
  | none =>
    have hne := List.find?_eq_none.mp hfind c0 hc0
    exact absurd hfp0 hne
  | some c1 =>
    have hp1' := List.find?_some hfind
    have hp1 : c1.fingerprints.contains (fingerprintOf doc.text) = true := hp1'
    have hres : resolveIdentity db doc (fingerprintOf doc.text) = some c1 := by
      unfold resolveIdentity
      rw [hfind]
    simp only [ingestPipeline, hres]
    rw [hp1]
    exact ⟨rfl, rfl⟩

/-- After any ingest of a document, some stored candidate owns that
document's fingerprint: on the duplicate path the resolved candidate
already did, and on the merge paths the merger appends it. -/
theorem ingest_adds_fingerprint (embed : String → List Int) (now : Nat)
    (doc : RawDoc) (source : String) (db : DBState) :
    ∃ c ∈ (ingestPipeline embed now doc source db).1.candidates,
      c.fingerprints.contains (fingerprintOf doc.text) = true := by
  cases hres : resolveIdentity db doc (fingerprintOf doc.text) with
  | some c =>
    by_cases hdup : c.fingerprints.contains (fingerprintOf doc.text) = true
    · have h1 : (ingestPipeline embed now doc source db).1 = db := by
        simp only [ingestPipeline, hres]
        rw [hdup]
        rfl
      rw [h1]
      exact ⟨c, resolveIdentity_mem db doc _ c hres, hdup⟩
    · rw [Bool.not_eq_true] at hdup
      have h1 : (ingestPipeline embed now doc source db).1.candidates =
          db.candidates.map (fun x => if x.id == c.id
            then mergeFacts x doc (fingerprintOf doc.text) now else x) := by
        simp only [ingestPipeline, hres]
        rw [hdup]
        simp [upsertIndex, mergeIntoDB]
      rw [h1]
      refine ⟨mergeFacts c doc (fingerprintOf doc.text) now, ?_, ?_⟩
      · refine List.mem_map.mpr ⟨c, resolveIdentity_mem db doc _ c hres, ?_⟩
        simp
      · simp [mergeFacts]
  | none =>
    have h1 : (ingestPipeline embed now doc source db).1.candidates =
        (db.candidates ++ [newCandidate (freshId db) doc now]).map (fun x =>
          if x.id == freshId db
          then mergeFacts x doc (fingerprintOf doc.text) now else x) := by
      simp only [ingestPipeline, hres]
      simp [upsertIndex, mergeIntoDB]
    rw [h1]
    refine ⟨mergeFacts (newCandidate (freshId db) doc now) doc
      (fingerprintOf doc.text) now, ?_, ?_⟩
    · refine List.mem_map.mpr ⟨newCandidate (freshId db) doc now, ?_, ?_⟩
      · exact List.mem_append_right _ (List.mem_singleton.mpr rfl)
      · simp [newCandidate]
    · simp [mergeFacts, newCandidate]

/-- Claim C3: ingesting a byte-identical document a second time reports
`wasDuplicateResume = true` and leaves the whole state — candidate store,
Embedding Index and audit log — exactly as the first ingest left it: no
merge and no index update happen on the duplicate ingest. -/
theorem c3_reingest_is_duplicate_noop (embed : String → List Int)
    (now1 now2 : Nat) (doc : RawDoc) (src1 src2 : String) (db0 : DBState) :
    (ingestPipeline embed now2 doc src2
        (ingestPipeline embed now1 doc src1 db0).1).2.wasDuplicateResume =
      true ∧
    (ingestPipeline embed now2 doc src2
        (ingestPipeline embed now1 doc src1 db0).1).1 =
      (ingestPipeline embed now1 doc src1 db0).1 := by
  have h := ingest_adds_fingerprint embed now1 doc src1 db0
  have h2 := ingest_duplicate_shortcircuit embed now2 doc src2
    (ingestPipeline embed now1 doc src1 db0).1 h
  exact ⟨h2.2, h2.1⟩

/-! ### The ingest HTTP endpoint (claims C8 and C9) -/

/-- Shallow embedding of the upload loop of `ingest_resume` (main.py lines
146-153): `while chunk := await file.read(chunk_size)` reads chunks until
an empty read, adding each chunk's length to `file_size` and raising
HTTP 400 as soon as the accumulated size exceeds the limit.  Returns `none`
on the HTTPException path and `some total` when the loop completes. -/
def sizeLoop (limit : Nat) (acc : Nat) : List (List Nat) → Option Nat
  | [] => some acc
  | chunk :: rest =>
    if chunk = [] then some acc
    else
      if limit < acc + chunk.length then none
      else sizeLoop limit (acc + chunk.length) rest

/-- The number of bytes the upload loop accumulates: the chunk lengths up
to the first empty read. -/
def readBytes (chunks : List (List Nat)) : Nat :=
  ((chunks.takeWhile (fun c => c != [])).map (fun c => c.length)).sum

/-- The extension check of main.py line 131: the lower-cased filename must
end in .pdf, .docx or .doc. -/
def validResumeExt (filename : String) : Bool :=
  filename.toLower.endsWith ".pdf" || filename.toLower.endsWith ".docx" ||
    filename.toLower.endsWith ".doc"

/-- The observable outcome of one `ingest_resume` request: the HTTP result,
the database state afterwards, the temp-directory contents afterwards, and
whether the ingestion pipeline (the IngestService call of main.py line 157)
was ever invoked. -/
structure IngestOutcome where
  result : Except HTTPErr IngestResult
  db : DBState
  tempDir : List String
  pipelineInvoked : Bool

/-- Shallow embedding of the handler `ingest_resume` (main.py lines
119-172).  `tempDir` is the set of files in the temp directory and `tmp`
the fresh name `tempfile.NamedTemporaryFile(delete=False)` creates (the
`with` block of line 144); the ingestion service behind line 157 is a
parameter.  Control flow from the source: extension check (400), the
upload-size loop (400 via `raise HTTPException` inside the `try`), the
service call (any exception becoming a 500), and the `finally` block of
lines 169-172, which removes the temporary file whenever it exists — on
every path after its creation, success or failure. -/
def ingest_resume_endpoint (maxFileSizeMB : Nat)
    (svc : DBState → Except String (DBState × IngestResult))
    (filename : String) (chunks : List (List Nat)) (tmp : String)
    (tempDir : List String) (db : DBState) : IngestOutcome :=
  if validResumeExt filename = false then
    ⟨Except.error ⟨400, "不支持的文件格式，仅支持 PDF 和 DOCX"⟩, db, tempDir, false⟩
  else
    let dir1 := tempDir ++ [tmp]
    let cleanup := fun (l : List String) =>
      if l.contains tmp then l.erase tmp else l
    match sizeLoop (maxFileSizeMB * 1024 * 1024) 0 chunks with
    | none =>
      ⟨Except.error ⟨400, "文件大小超过限制"⟩, db, cleanup dir1, false⟩
    | some _ =>
      match svc db with
      | Except.error e =>
        ⟨Except.error ⟨500, "入库失败: " ++ e⟩, db, cleanup dir1, true⟩
      | Except.ok (db2, r) => ⟨Except.ok r, db2, cleanup dir1, true⟩

/-- A non-empty leading chunk contributes its length to the accumulated
read size. -/
theorem readBytes_cons_ne (chunk : List Nat) (rest : List (List Nat))
    (hc : ¬ chunk = []) :
    readBytes (chunk :: rest) = chunk.length + readBytes rest := by
  simp [readBytes, List.takeWhile_cons, hc]

/-- An empty read stops the loop: nothing further is accumulated. -/
theorem readBytes_cons_nil (rest : List (List Nat)) :
    readBytes ([] :: rest) = 0 := by
  simp [readBytes]

/-- When the accumulated upload size would exceed the limit, the upload
loop raises (returns `none`) before completing. -/
theorem sizeLoop_exceeds (limit : Nat) (chunks : List (List Nat)) :
    ∀ acc : Nat, acc ≤ limit → limit < acc + readBytes chunks →
      sizeLoop limit acc chunks = none := by
  induction chunks with
  | nil =>
    intro acc hle hgt
    simp [readBytes] at hgt
    omega
  | cons chunk rest ih =>
    intro acc hle hgt
    by_cases hc : chunk = []
    · subst hc
      rw [readBytes_cons_nil] at hgt
      omega
    · rw [readBytes_cons_ne chunk rest hc] at hgt
      unfold sizeLoop
      rw [if_neg hc]
      by_cases h2 : limit < acc + chunk.length
      · rw [if_pos h2]
      · rw [if_neg h2]
        exact ih (acc + chunk.length) (by omega) (by omega)

/-- Claim C8: an upload whose accumulated size exceeds the configured
maximum (settings.max_file_size_mb megabytes) is rejected with HTTP 400,
the ingestion pipeline is never invoked, and the store is untouched. -/
theorem c8_oversize_rejected_before_pipeline (maxFileSizeMB : Nat)
    (svc : DBState → Except String (DBState × IngestResult))
    (filename : String) (chunks : List (List Nat)) (tmp : String)
    (tempDir : List String) (db : DBState)
    (h : maxFileSizeMB * 1024 * 1024 < readBytes chunks) :
    (∃ d, (ingest_resume_endpoint maxFileSizeMB svc filename chunks tmp
      tempDir db).result = Except.error ⟨400, d⟩) ∧
    (ingest_resume_endpoint maxFileSizeMB svc filename chunks tmp
      tempDir db).pipelineInvoked = false ∧
    (ingest_resume_endpoint maxFileSizeMB svc filename chunks tmp
      tempDir db).db = db := by
  simp only [ingest_resume_endpoint]
  by_cases hv : validResumeExt filename = false
  · rw [if_pos hv]
    exact ⟨⟨_, rfl⟩, rfl, rfl⟩
  · rw [if_neg hv]
    have hs : sizeLoop (maxFileSizeMB * 1024 * 1024) 0 chunks = none :=
      sizeLoop_exceeds _ chunks 0 (Nat.zero_le _) (by omega)
    simp only [hs]
    exact ⟨⟨_, rfl⟩, by trivial, by trivial⟩

/-- Claim C8 witness: the theorem applied with a zero-megabyte limit and a
one-byte upload. -/
theorem c8_oversize_rejected_before_pipeline_witness :
    0 * 1024 * 1024 < readBytes [[7]] ∧
    ((∃ d, (ingest_resume_endpoint 0
        (fun s => Except.ok (s, ⟨1, true, false⟩)) "a.pdf" [[7]] "t1" []
        dbOneCandidate).result = Except.error ⟨400, d⟩) ∧
      (ingest_resume_endpoint 0 (fun s => Except.ok (s, ⟨1, true, false⟩))
        "a.pdf" [[7]] "t1" [] dbOneCandidate).pipelineInvoked = false ∧
      (ingest_resume_endpoint 0 (fun s => Except.ok (s, ⟨1, true, false⟩))
        "a.pdf" [[7]] "t1" [] dbOneCandidate).db = dbOneCandidate) :=
  ⟨by decide,
   c8_oversize_rejected_before_pipeline 0
     (fun s => Except.ok (s, ⟨1, true, false⟩)) "a.pdf" [[7]] "t1" []
     dbOneCandidate (by decide)⟩

/-- Claim C9: whenever the handler creates its temporary file (a fresh
name, absent from the temp directory beforehand), that file is gone from
the temp directory when the call returns — on the success path and on
every failure path alike, thanks to the `finally` block. -/
theorem c9_temp_file_always_removed (maxFileSizeMB : Nat)
    (svc : DBState → Except String (DBState × IngestResult))
    (filename : String) (chunks : List (List Nat)) (tmp : String)
    (tempDir : List String) (db : DBState) (hfresh : tmp ∉ tempDir) :
    tmp ∉ (ingest_resume_endpoint maxFileSizeMB svc filename chunks tmp
      tempDir db).tempDir := by
  have hcontains : (tempDir ++ [tmp]).contains tmp = true := by simp
  have herase : (tempDir ++ [tmp]).erase tmp = tempDir := by
    rw [List.erase_append_right _ hfresh]
    simp
  simp only [ingest_resume_endpoint]
  by_cases hv : validResumeExt filename = false
  · rw [if_pos hv]
    exact hfresh
  · rw [if_neg hv]
    cases hsl : sizeLoop (maxFileSizeMB * 1024 * 1024) 0 chunks with
    | none =>
      simp only [hsl]
      rw [if_pos hcontains, herase]
      exact hfresh
    | some t =>
      simp only [hsl]
      cases hsv : svc db with
      | error e =>
        simp only [hsv]
        rw [if_pos hcontains, herase]
        exact hfresh
      | ok p =>
        cases p with
        | mk db2 r =>
          simp only [hsv]
          rw [if_pos hcontains, herase]
          exact hfresh

/-- Claim C9 witness: the theorem applied on a successful concrete ingest
with a fresh temp name. -/
theorem c9_temp_file_always_removed_witness :
    ("t1" ∉ ([] : List String)) ∧
    "t1" ∉ (ingest_resume_endpoint 10
      (fun s => Except.ok (s, ⟨1, true, false⟩)) "a.pdf" [[1]] "t1" []
      dbOneCandidate).tempDir :=
  ⟨by decide,
   c9_temp_file_always_removed 10 (fun s => Except.ok (s, ⟨1, true, false⟩))
     "a.pdf" [[1]] "t1" [] dbOneCandidate (by decide)⟩

/-! ### Reindexing (claim C6)

`services/indexing_service.py` is not among the sources; the scheduler is
modelled from spec section 4.6, and the HTTP handler of main.py lines
311-342 is embedded on top of it. -/

/-- Modelled from the spec: staleness (section 3) — a candidate whose index
state is missing or lags behind its record. -/
def isStale (db : DBState) (c : Candidate) : Bool :=
  match db.index.find? (fun e => e.candidateId == c.id) with
  | none => true
  | some e => decide (e.updatedAt < c.updatedAt)

/-- Modelled from the spec: the Reindex Scheduler's candidate selection
(section 4.6) — the explicit id list when given, else every candidate
updated since the given time, else every stale candidate. -/
def selectCandidates (db : DBState) (ids : Option (List Nat))
    (since : Option Nat) : List Candidate :=
  match ids with
  | some l => db.candidates.filter (fun c => l.contains c.id)
  | none =>
    match since with
    | some t => db.candidates.filter (fun c => decide (t ≤ c.updatedAt))
    | none => db.candidates.filter (isStale db)

/-- The scheduler's running state: the store (whose index the upserts
update), the succeeded and failed counts, and the accumulated failure list
of candidate ids with reasons. -/
structure ReindexOutcome where
  db : DBState
  succeeded : Nat
  failed : Nat
  failures : List (Nat × String)
  deriving Repr, DecidableEq

/-- Modelled from the spec: one scheduler step (section 4.6) — recompute
the candidate's embedding; a failure is recorded with candidate id and
reason and does not abort anything; a success upserts the vector. -/
def reindexStep (embedC : Candidate → Except String (List Int)) (now : Nat)
    (acc : ReindexOutcome) (c : Candidate) : ReindexOutcome :=
  match embedC c with
  | Except.error e =>
    { acc with failed := acc.failed + 1,
               failures := acc.failures ++ [(c.id, e)] }
  | Except.ok v =>
    { acc with db := upsertIndex acc.db c.id v "v1" now,
               succeeded := acc.succeeded + 1 }

/-- Modelled from the spec: `IndexingService.reindex_all` (section 4.6) —
walk the selected candidates, isolating per-candidate failures. -/
def reindex_all (embedC : Candidate → Except String (List Int)) (now : Nat)
    (ids : Option (List Nat)) (since : Option Nat) (db : DBState) :
    ReindexOutcome :=
  (selectCandidates db ids since).foldl (reindexStep embedC now) ⟨db, 0, 0, []⟩

/-- Response body of POST /api/reindex (main.py lines 329-334). -/
structure ReindexResponse where
  success : Bool
  reindexed_count : Nat
  failed_count : Nat
  errors : List String
  deriving Repr, DecidableEq

/-- Shallow embedding of the handler `reindex_candidates` (main.py lines
311-342): call the indexing service and shape the response of lines
329-334 — `success = True`, the succeeded and failed counts from the
service result, and a hard-coded empty `errors` list.  (The `except`
branch of lines 336-342 handles a batch-level exception of the service;
the modelled service is total, so the success branch is the embedding.) -/
def reindex_candidates_endpoint (embedC : Candidate → Except String (List Int))
    (now : Nat) (ids : Option (List Nat)) (since : Option Nat)
    (db : DBState) : DBState × ReindexResponse :=
  let r := reindex_all embedC now ids since db
  (r.db, ⟨true, r.succeeded, r.failed, []⟩)

/-- Every walked candidate is counted exactly once, as a success or a
failure: failures do not abort the walk. -/
theorem reindex_foldl_counts (embedC : Candidate → Except String (List Int))
    (now : Nat) (l : List Candidate) :
    ∀ acc : ReindexOutcome,
      (l.foldl (reindexStep embedC now) acc).succeeded +
        (l.foldl (reindexStep embedC now) acc).failed =
      acc.succeeded + acc.failed + l.length := by
  induction l with
  | nil => intro acc; simp
  | cons c rest ih =>
    intro acc
    rw [List.foldl_cons, ih (reindexStep embedC now acc c)]
    cases hc : embedC c with
    | error e => simp [reindexStep, hc]; omega
    | ok v => simp [reindexStep, hc]; omega

/-- The failure list the scheduler accumulates is exactly the walked
candidates whose embedding failed, each with its id and reason. -/
theorem reindex_foldl_failures
    (embedC : Candidate → Except String (List Int)) (now : Nat)
    (l : List Candidate) :
    ∀ acc : ReindexOutcome,
      (l.foldl (reindexStep embedC now) acc).failures =
      acc.failures ++ l.filterMap (fun c =>
        match embedC c with
        | Except.error e => some (c.id, e)
        | Except.ok _ => none) := by
  induction l with
  | nil => intro acc; simp
  | cons c rest ih =>
    intro acc
    rw [List.foldl_cons, ih (reindexStep embedC now acc c)]
    cases hc : embedC c with
    | error e => simp [reindexStep, hc, List.filterMap_cons]
    | ok v => simp [reindexStep, hc, List.filterMap_cons]

/-- Claim C6 (counterexample): with one selected candidate whose embedding
fails, the service records the failure with id and reason, yet the HTTP
response reports `failed_count = 1` with an empty `errors` list — the
response does not report the failed candidate's id or reason. -/
theorem c6_response_errors_always_empty :
    (reindex_candidates_endpoint
      (fun _ => Except.error "embedding backend down") 0 (some [1]) none
      dbOneCandidate).2.failed_count = 1 ∧
    (reindex_candidates_endpoint
      (fun _ => Except.error "embedding backend down") 0 (some [1]) none
      dbOneCandidate).2.errors = [] ∧
    (reindex_all (fun _ => Except.error "embedding backend down") 0
      (some [1]) none dbOneCandidate).failures =
      [(1, "embedding backend down")] := by
  refine ⟨rfl, rfl, rfl⟩

/-- Claim C6 (amended): per-candidate failures do not abort the batch —
every selected candidate is still walked and counted — and the scheduler
accumulates the failure list with candidate id and reason; the HTTP
response reports the succeeded and failed counts but its `errors` list is
always empty, so the per-candidate ids and reasons do not reach the
response. -/
theorem c6_failures_isolated_counts_reported
    (embedC : Candidate → Except String (List Int)) (now : Nat)
    (ids : Option (List Nat)) (since : Option Nat) (db : DBState) :
    (reindex_all embedC now ids since db).succeeded +
      (reindex_all embedC now ids since db).failed =
      (selectCandidates db ids since).length ∧
    (∀ c ∈ selectCandidates db ids since, ∀ e,
      embedC c = Except.error e →
      (c.id, e) ∈ (reindex_all embedC now ids since db).failures) ∧
    (reindex_candidates_endpoint embedC now ids since db).2.reindexed_count =
      (reindex_all embedC now ids since db).succeeded ∧
    (reindex_candidates_endpoint embedC now ids since db).2.failed_count =
      (reindex_all embedC now ids since db).failed ∧
    (reindex_candidates_endpoint embedC now ids since db).2.errors = [] := by
  refine ⟨?_, ?_, rfl, rfl, rfl⟩
  · have h := reindex_foldl_counts embedC now (selectCandidates db ids since)
      ⟨db, 0, 0, []⟩
    unfold reindex_all
    simpa using h
  · intro c hc e he
    unfold reindex_all
    rw [reindex_foldl_failures]
    refine List.mem_append_right _ ?_
    refine List.mem_filterMap.mpr ⟨c, hc, ?_⟩
    rw [he]

/-- Claim C6 witness: the amended theorem applied at a concrete store with
a failing embedding backend. -/
theorem c6_failures_isolated_counts_reported_witness :
    (((1 : Nat), "down") ∈
      (reindex_all (fun _ => Except.error "down") 0 (some [1]) none
        dbOneCandidate).failures) ∧
    (reindex_candidates_endpoint (fun _ => Except.error "down") 0 (some [1])
      none dbOneCandidate).2.errors = [] :=
  ⟨(c6_failures_isolated_counts_reported (fun _ => Except.error "down") 0
      (some [1]) none dbOneCandidate).2.1
      { id := 1, name := "Alice", email := "a@x.com", phone := "123",
        location := "SF", skills := ["python"], status := "active",
        yearsExperience := 3, updatedAt := 10,
        fingerprints := ["fp1"], companies := ["acme"] }
      (by decide) "down" rfl,
   (c6_failures_isolated_counts_reported (fun _ => Except.error "down") 0
      (some [1]) none dbOneCandidate).2.2.2.2⟩
